import Mathlib

/-!
# Verification of the autotracko Tracker Resolution & Analytics Aggregation Engine

Shallow embedding of the engine's pure core:

* `normalizeDomain`            (src/tracker.ts)
* `prepareTrackerData`         (src/tracker.ts)
* `findTrackerInfo`            (src/tracker.ts)
* `updateOrAddCacheEntry`      (src/cache.ts)
* `normalizeResults`           (src/utils/normalizeResults.ts)
* `generateAnalyticsInternal`  (src/scripts/analytics.ts)

JavaScript strings are modelled as `List Char` (`Str`), so that the character-level
operations (`toLowerCase`, the `^www\.` prefix strip, `endsWith`) are explicit.
JavaScript `Map`s and plain objects used as dictionaries are modelled as
insertion-ordered association lists (`List (Str × β)`); `Map.get`/`Map.set` and
property access/assignment become `mapGet`/`mapSet`.  JavaScript `Set`s are
insertion-ordered duplicate-free lists (`addToSet`).  JavaScript numbers used for
counting are `Nat`; the statistics derived with `toFixed(2)`/`parseFloat` and
`Math.round` are modelled as exact rationals with explicit rounding (`round2`,
`roundHalfUp`).
-/

/-- A JavaScript string, as its sequence of characters. -/
abbrev Str := List Char

/-- `s.toLowerCase()` (the engine only ever lowercases ASCII domain names). -/
def toLowerStr (s : Str) : Str := s.map Char.toLower

/-- The four characters of the literal prefix `www.` tested by the regex `/^www\./`. -/
def wwwDot : Str := ['w', 'w', 'w', '.']

/-- `src/tracker.ts` `normalizeDomain`:
`if (!domain) return ""; return domain.toLowerCase().replace(/^www\./, "");`
The regex is anchored, so at most one leading `www.` is removed, after lowercasing. -/
def normalizeDomain (domain : Str) : Str :=
  if domain.isEmpty then []
  else
    let lowered := toLowerStr domain
    if lowered.take 4 = wwwDot then lowered.drop 4 else lowered

-- ### Lemmas about lowercasing

theorem char_toNat_ofNat_valid {n : Nat} (h : n.isValidChar) : (Char.ofNat n).toNat = n := by
  simp [Char.ofNat, h, Char.ofNatAux, Char.toNat, UInt32.toNat, BitVec.toNat_ofNatLt]

theorem char_toLower_idem (c : Char) : (c.toLower).toLower = c.toLower := by
  simp only [Char.toLower]
  by_cases h : c.toNat ≥ 65 ∧ c.toNat ≤ 90
  · rw [if_pos h]
    have hv : (c.toNat + 32).isValidChar := by
      left
      omega
    rw [char_toNat_ofNat_valid hv]
    rw [if_neg (by omega)]
  · rw [if_neg h, if_neg h]

theorem toLowerStr_idem (s : Str) : toLowerStr (toLowerStr s) = toLowerStr s := by
  simp only [toLowerStr, List.map_map]
  exact List.map_congr_left fun c _ => char_toLower_idem c

theorem toLowerStr_take (s : Str) (n : Nat) :
    toLowerStr (s.take n) = (toLowerStr s).take n := by
  simp [toLowerStr, List.map_take]

theorem toLowerStr_drop (s : Str) (n : Nat) :
    toLowerStr (s.drop n) = (toLowerStr s).drop n := by
  simp [toLowerStr, List.map_drop]

-- ### Behaviour of normalizeDomain

/-- Unfolded characterisation: the empty-input guard is subsumed by the general rule. -/
theorem normalizeDomain_eq (domain : Str) :
    normalizeDomain domain =
      if (toLowerStr domain).take 4 = wwwDot then (toLowerStr domain).drop 4
      else toLowerStr domain := by
  cases domain with
  | nil => simp [normalizeDomain, toLowerStr, wwwDot]
  | cons c cs => simp [normalizeDomain]

theorem normalizeDomain_starts_www_iff (domain : Str) :
    (normalizeDomain domain).take 4 = wwwDot ↔ (toLowerStr domain).take 8 = wwwDot ++ wwwDot := by
  rw [normalizeDomain_eq]
  by_cases h : (toLowerStr domain).take 4 = wwwDot
  · rw [if_pos h]
    have h8 : (toLowerStr domain).take 8 = (toLowerStr domain).take 4 ++ ((toLowerStr domain).drop 4).take 4 := by
      have := List.take_add (toLowerStr domain) 4 4
      simpa using this
    constructor
    · intro hdrop
      rw [h8, h, hdrop]
    · intro htake8
      rw [h8, h] at htake8
      exact (List.append_cancel_left htake8)
  · rw [if_neg h]
    constructor
    · intro h4
      exact absurd h4 h
    · intro htake8
      exfalso
      apply h
      have h8 : (toLowerStr domain).take 4 = ((toLowerStr domain).take 8).take 4 := by
        rw [List.take_take]
        norm_num
      rw [h8, htake8]
      rfl

/-- Applying `normalizeDomain` to an already-normalized domain only does something when
that normalized domain still starts with `www.`. -/
theorem normalizeDomain_normalizeDomain (domain : Str) :
    normalizeDomain (normalizeDomain domain) =
      if (normalizeDomain domain).take 4 = wwwDot then (normalizeDomain domain).drop 4
      else normalizeDomain domain := by
  have hlower : toLowerStr (normalizeDomain domain) = normalizeDomain domain := by
    rw [normalizeDomain_eq]
    by_cases h : (toLowerStr domain).take 4 = wwwDot
    · rw [if_pos h, toLowerStr_drop, toLowerStr_idem]
    · rw [if_neg h, toLowerStr_idem]
  rw [normalizeDomain_eq (normalizeDomain domain), hlower]

/-- C2, counterexample: `normalizeDomain` is **not** idempotent.  The code strips exactly
one leading `www.` per application, so `www.www.example.com` normalizes to
`www.example.com`, and normalizing again yields `example.com`. -/
theorem normalizeDomain_not_idempotent_on_double_www :
    normalizeDomain (normalizeDomain
        ['w', 'w', 'w', '.', 'w', 'w', 'w', '.', 'e', 'x', 'a', 'm', 'p', 'l', 'e', '.', 'c', 'o', 'm']) ≠
      normalizeDomain
        ['w', 'w', 'w', '.', 'w', 'w', 'w', '.', 'e', 'x', 'a', 'm', 'p', 'l', 'e', '.', 'c', 'o', 'm'] := by
  decide

/-- C2, amended: `normalizeDomain` is idempotent on every domain whose lowercased form
does not begin with the eight characters `www.www.` (equivalently, on every domain whose
normalization does not itself begin with `www.`). -/
theorem normalizeDomain_idempotent_unless_double_www (d : Str)
    (h : (toLowerStr d).take 8 ≠ wwwDot ++ wwwDot) :
    normalizeDomain (normalizeDomain d) = normalizeDomain d := by
  rw [normalizeDomain_normalizeDomain]
  rw [if_neg]
  intro hww
  exact h ((normalizeDomain_starts_www_iff d).mp hww)

/-- Witness for the amended C2 at a concrete input. -/
theorem normalizeDomain_idempotent_unless_double_www_witness :
    (toLowerStr ['w', 'w', 'w', '.', 'e', 'x', 'a', 'm', 'p', 'l', 'e', '.', 'c', 'o', 'm']).take 8 ≠ wwwDot ++ wwwDot ∧
      normalizeDomain (normalizeDomain ['w', 'w', 'w', '.', 'e', 'x', 'a', 'm', 'p', 'l', 'e', '.', 'c', 'o', 'm']) =
        normalizeDomain ['w', 'w', 'w', '.', 'e', 'x', 'a', 'm', 'p', 'l', 'e', '.', 'c', 'o', 'm'] :=
  ⟨by decide,
   normalizeDomain_idempotent_unless_double_www
     ['w', 'w', 'w', '.', 'e', 'x', 'a', 'm', 'p', 'l', 'e', '.', 'c', 'o', 'm'] (by decide)⟩

/-- C4: the `normalizeDomain` contract.  Empty input yields empty output; the three
documented examples hold; and in general the result is the lowercased input with exactly
one leading `www.` prefix removed when (and only when) it occurs at the very start.
The function is total by construction. -/
theorem normalizeDomain_contract :
    normalizeDomain [] = [] ∧
      normalizeDomain ['W', 'W', 'W', '.', 'E', 'x', 'a', 'm', 'p', 'l', 'e', '.', 'C', 'O', 'M'] =
        ['e', 'x', 'a', 'm', 'p', 'l', 'e', '.', 'c', 'o', 'm'] ∧
      normalizeDomain ['s', 'u', 'b', '.', 'w', 'w', 'w', '.', 'e', 'x', 'a', 'm', 'p', 'l', 'e', '.', 'c', 'o', 'm'] =
        ['s', 'u', 'b', '.', 'w', 'w', 'w', '.', 'e', 'x', 'a', 'm', 'p', 'l', 'e', '.', 'c', 'o', 'm'] ∧
      ∀ d : Str,
        normalizeDomain d =
          if (toLowerStr d).take 4 = wwwDot then (toLowerStr d).drop 4 else toLowerStr d :=
  ⟨by decide, by decide, by decide, normalizeDomain_eq⟩

-- ## Insertion-ordered dictionaries (JavaScript `Map` / plain object used as a map)

/-- `map.get(k)` / `obj[k]` guarded by `Object.hasOwn`: first entry with the given key. -/
def mapGet {β : Type} : List (Str × β) → Str → Option β
  | [], _ => none
  | p :: rest, k => if p.1 = k then some p.2 else mapGet rest k

/-- `map.set(k, v)` / `obj[k] = v`: replace the value in place if the key exists
(preserving its position), otherwise append a fresh entry. -/
def mapSet {β : Type} : List (Str × β) → Str → β → List (Str × β)
  | [], k, v => [(k, v)]
  | p :: rest, k, v => if p.1 = k then (k, v) :: rest else p :: mapSet rest k v

/-- `set.add(x)` on a JavaScript `Set` (insertion-ordered, duplicate-free). -/
def addToSet (s : List Str) (x : Str) : List Str :=
  if x ∈ s then s else s ++ [x]

@[simp] theorem mapGet_nil {β : Type} (k : Str) : mapGet ([] : List (Str × β)) k = none := rfl

theorem mapGet_eq_some_mem {β : Type} {m : List (Str × β)} {k : Str} {v : β}
    (h : mapGet m k = some v) : (k, v) ∈ m := by
  induction m with
  | nil => simp [mapGet] at h
  | cons p rest ih =>
    rw [mapGet] at h
    by_cases hk : p.1 = k
    · rw [if_pos hk] at h
      injection h with hv
      have hp : p = (k, v) := by
        cases p
        simp_all
      rw [← hp]
      exact List.mem_cons_self _ _
    · rw [if_neg hk] at h
      exact List.mem_cons_of_mem _ (ih h)

-- ## Tracker registry data model (src/types.ts)

/-- A tracker registry entry.  The engine reads `owner`, `prevalence`, `categories`
and (per the spec, only to strip it) `rules`; the remaining catch-all attributes of
the open `TrackerInfo` record are never consulted by the verified core. -/
structure TrackerInfo where
  owner : Str
  prevalence : Rat
  categories : Option (List Str) := none
  rules : Option (List Str) := none
deriving DecidableEq

/-- A tracker list whose `trackers` field is a genuine key→entry object. -/
structure TrackerListObj where
  trackers : List (Str × TrackerInfo)
deriving DecidableEq

/-- The runtime shape of the `trackers` field of a parsed tracker list: the code
distinguishes `null`, arrays and non-objects from genuine objects. -/
inductive TrackersField where
  | nullV : TrackersField
  | arrayV : TrackersField
  | nonObjectV : TrackersField
  | objectV : List (Str × TrackerInfo) → TrackersField
deriving DecidableEq

/-- A possibly-malformed tracker list value (`none` models a missing/null registry). -/
structure TrackerListVal where
  trackers : TrackersField
deriving DecidableEq

/-- `src/tracker.ts` `PreparedTrackerData`. -/
structure PreparedTrackerData where
  originalList : TrackerListObj
  normalizedMap : List (Str × Str)
deriving DecidableEq

/-- The empty prepared structure returned on invalid input:
`{ originalList: { trackers: {} }, normalizedMap: new Map() }`. -/
def emptyPrepared : PreparedTrackerData := { originalList := ⟨[]⟩, normalizedMap := [] }

/-- The validation condition of `prepareTrackerData`:
`!trackerList || typeof trackerList.trackers !== "object" || trackerList.trackers === null
|| Array.isArray(trackerList.trackers)`. -/
def isInvalidTrackerList : Option TrackerListVal → Bool
  | none => true
  | some tl =>
    match tl.trackers with
    | .objectV _ => false
    | _ => true

/-- `src/tracker.ts` `prepareTrackerData`: on invalid input return the empty structure,
otherwise insert `(normalizeDomain(key) → key)` for every registry key, in order. -/
def prepareTrackerData (trackerList : Option TrackerListVal) : PreparedTrackerData :=
  match trackerList with
  | none => emptyPrepared
  | some tl =>
    match tl.trackers with
    | .objectV entries =>
      { originalList := ⟨entries⟩,
        normalizedMap := entries.foldl (fun nm p => mapSet nm (normalizeDomain p.1) p.1) [] }
    | _ => emptyPrepared

/-- C6: whenever the registry is missing/null or its tracker collection is not a proper
key→entry object (array, null, or other non-object), `prepareTrackerData` returns the
empty index instead of failing. -/
theorem prepareTrackerData_invalid_input_empty (input : Option TrackerListVal)
    (h : isInvalidTrackerList input = true) :
    prepareTrackerData input = emptyPrepared := by
  match input with
  | none => rfl
  | some tl =>
    match htl : tl.trackers with
    | .nullV => simp [prepareTrackerData, htl]
    | .arrayV => simp [prepareTrackerData, htl]
    | .nonObjectV => simp [prepareTrackerData, htl]
    | .objectV entries => simp [isInvalidTrackerList, htl] at h

/-- Witness for C6 at a concrete invalid input (an array-valued tracker collection). -/
theorem prepareTrackerData_invalid_input_empty_witness :
    isInvalidTrackerList (some ⟨.arrayV⟩) = true ∧
      prepareTrackerData (some ⟨.arrayV⟩) = emptyPrepared :=
  ⟨rfl, prepareTrackerData_invalid_input_empty (some ⟨.arrayV⟩) rfl⟩

-- ## Tracker resolution (src/tracker.ts findTrackerInfo)

/-- The subdomain-match loop of `findTrackerInfo`: scan the index entries in insertion
order and return at the first `(normTracker, originalKey)` with `normTracker` non-empty
and `normDomain.endsWith("." + normTracker)`. -/
def findTrackerInfoScan (trackers : List (Str × TrackerInfo)) (normDomain : Str) :
    List (Str × Str) → Option TrackerInfo
  | [] => none
  | p :: rest =>
    if p.1 ≠ [] ∧ ('.' :: p.1) <:+ normDomain then mapGet trackers p.2
    else findTrackerInfoScan trackers normDomain rest

/-- `src/tracker.ts` `findTrackerInfo`, including its guards: null/empty prepared data
and empty normalized domains resolve to `null`; an exact-match hit whose stored original
key is the (falsy) empty string falls through to the subdomain scan. -/
def findTrackerInfo (domain : Str) (preparedData : Option PreparedTrackerData) :
    Option TrackerInfo :=
  match preparedData with
  | none => none
  | some pd =>
    if pd.normalizedMap.isEmpty then none
    else
      let normDomain := normalizeDomain domain
      if normDomain.isEmpty then none
      else
        match mapGet pd.normalizedMap normDomain with
        | some exactMatchOriginalDomain =>
          if exactMatchOriginalDomain.isEmpty then
            findTrackerInfoScan pd.originalList.trackers normDomain pd.normalizedMap
          else mapGet pd.originalList.trackers exactMatchOriginalDomain
        | none => findTrackerInfoScan pd.originalList.trackers normDomain pd.normalizedMap

/-- The resolver as C3 states it: an exact lookup of the normalized observed domain
first; on a miss, the entry of the *first* index pair (in insertion order) whose
non-empty normalized key `k` makes the observed domain equal `<anything>.k`; otherwise
not-found. -/
def findTrackerInfoSpec (domain : Str) (pd : PreparedTrackerData) : Option TrackerInfo :=
  let normDomain := normalizeDomain domain
  match mapGet pd.normalizedMap normDomain with
  | some originalKey => mapGet pd.originalList.trackers originalKey
  | none =>
    match pd.normalizedMap.find? (fun p => decide (p.1 ≠ [] ∧ ('.' :: p.1) <:+ normDomain)) with
    | some p => mapGet pd.originalList.trackers p.2
    | none => none

theorem findTrackerInfoScan_eq_find? (trackers : List (Str × TrackerInfo)) (nd : Str)
    (entries : List (Str × Str)) :
    findTrackerInfoScan trackers nd entries =
      match entries.find? (fun p => decide (p.1 ≠ [] ∧ ('.' :: p.1) <:+ nd)) with
      | some p => mapGet trackers p.2
      | none => none := by
  induction entries with
  | nil => rfl
  | cons p rest ih =>
    rw [findTrackerInfoScan, List.find?_cons]
    by_cases h : p.1 ≠ [] ∧ ('.' :: p.1) <:+ nd
    · rw [if_pos h]
      simp [h]
    · rw [if_neg h]
      simp only [h, decide_False]
      exact ih

theorem find?_suffix_nil_eq_none (entries : List (Str × Str)) :
    entries.find? (fun p => decide (p.1 ≠ [] ∧ ('.' :: p.1) <:+ ([] : Str))) = none := by
  apply List.find?_eq_none.mpr
  intro p _
  simp only [decide_eq_true_eq]
  rintro ⟨-, hsuf⟩
  have := hsuf.length_le
  simp at this

/-- C3, amended: for every observed domain and every prepared index whose entries have
non-empty normalized keys and non-empty original keys, `findTrackerInfo` resolves by
exact lookup first and otherwise by the first suffix match in insertion order (not
most-specific match), returning not-found when neither step matches.  The restriction
is forced by the code's empty-normalized-domain guard, which on an index entry with an
empty normalized key (registry key `www.`) diverges from the exact-lookup-first
description — see the counterexample below. -/
theorem findTrackerInfo_first_match (domain : Str) (pd : PreparedTrackerData)
    (h : ∀ p ∈ pd.normalizedMap, p.1 ≠ [] ∧ p.2 ≠ []) :
    findTrackerInfo domain (some pd) = findTrackerInfoSpec domain pd := by
  rw [findTrackerInfo, findTrackerInfoSpec]
  by_cases hempty : pd.normalizedMap.isEmpty
  · rw [if_pos hempty]
    rw [List.isEmpty_iff] at hempty
    rw [hempty]
    simp [mapGet]
  · rw [if_neg hempty]
    by_cases hnd : (normalizeDomain domain).isEmpty
    · rw [if_pos hnd]
      rw [List.isEmpty_iff] at hnd
      rw [hnd]
      have hget : mapGet pd.normalizedMap [] = none := by
        cases hg : mapGet pd.normalizedMap [] with
        | none => rfl
        | some v =>
          have hmem := mapGet_eq_some_mem hg
          have := (h _ hmem).1
          simp at this
      rw [hget, find?_suffix_nil_eq_none]
    · rw [if_neg hnd]
      cases hg : mapGet pd.normalizedMap (normalizeDomain domain) with
      | some orig =>
        have hmem := mapGet_eq_some_mem hg
        have horig : orig ≠ [] := (h _ hmem).2
        cases orig with
        | nil => exact absurd rfl horig
        | cons a as => simp
      | none =>
        exact findTrackerInfoScan_eq_find? _ _ _

def infoWww : TrackerInfo := { owner := ['W'], prevalence := 0 }

/-- The index `prepareTrackerData` builds from the one-entry registry
`{ "www.": infoWww }`: the key `www.` normalizes to the empty string, so the index
carries the entry `("" → "www.")`. -/
def pdFromWwwKey : PreparedTrackerData :=
  prepareTrackerData (some ⟨.objectV [(wwwDot, infoWww)]⟩)

/-- C3, counterexample: the claim as stated — exact lookup first on *every* prepared
index — is false of the code.  On the index prepared from registry key `www.`, the
observed domain `www.` normalizes to the empty string: the code returns `null` at its
empty-normalized-domain guard before any lookup, while the claim's exact-lookup-first
description finds the `("" → "www.")` entry and returns the registry entry. -/
theorem findTrackerInfo_empty_normalized_key_counterexample :
    pdFromWwwKey.normalizedMap = [([], wwwDot)] ∧
      findTrackerInfoSpec wwwDot pdFromWwwKey = some infoWww ∧
      findTrackerInfo wwwDot (some pdFromWwwKey) = none ∧
      findTrackerInfo wwwDot (some pdFromWwwKey) ≠ findTrackerInfoSpec wwwDot pdFromWwwKey := by
  refine ⟨rfl, rfl, rfl, fun h => ?_⟩
  have h2 : (none : Option TrackerInfo) = some infoWww := h
  exact Option.noConfusion h2

-- Concrete index for the C3 witness: the general `example.com` entry is inserted
-- before the more specific `sub.example.com` entry, so the first suffix match wins.

def infoGeneral : TrackerInfo := { owner := ['G'], prevalence := 0 }

def infoSpecific : TrackerInfo := { owner := ['S'], prevalence := 0 }

def pdShadow : PreparedTrackerData :=
  { originalList :=
      ⟨[(['e', 'x', 'a', 'm', 'p', 'l', 'e', '.', 'c', 'o', 'm'], infoGeneral),
        (['s', 'u', 'b', '.', 'e', 'x', 'a', 'm', 'p', 'l', 'e', '.', 'c', 'o', 'm'], infoSpecific)]⟩,
    normalizedMap :=
      [(['e', 'x', 'a', 'm', 'p', 'l', 'e', '.', 'c', 'o', 'm'],
        ['e', 'x', 'a', 'm', 'p', 'l', 'e', '.', 'c', 'o', 'm']),
       (['s', 'u', 'b', '.', 'e', 'x', 'a', 'm', 'p', 'l', 'e', '.', 'c', 'o', 'm'],
        ['s', 'u', 'b', '.', 'e', 'x', 'a', 'm', 'p', 'l', 'e', '.', 'c', 'o', 'm'])] }

/-- Witness for C3 at a concrete observed domain and index. -/
theorem findTrackerInfo_first_match_witness :
    (∀ p ∈ pdShadow.normalizedMap, p.1 ≠ [] ∧ p.2 ≠ []) ∧
      findTrackerInfo ['a', '.', 's', 'u', 'b', '.', 'e', 'x', 'a', 'm', 'p', 'l', 'e', '.', 'c', 'o', 'm'] (some pdShadow) =
        findTrackerInfoSpec ['a', '.', 's', 'u', 'b', '.', 'e', 'x', 'a', 'm', 'p', 'l', 'e', '.', 'c', 'o', 'm'] pdShadow :=
  ⟨by decide,
   findTrackerInfo_first_match
     ['a', '.', 's', 'u', 'b', '.', 'e', 'x', 'a', 'm', 'p', 'l', 'e', '.', 'c', 'o', 'm'] pdShadow (by decide)⟩

-- ## Cache ledger (src/cache.ts)

/-- `src/types.ts` `DomainCacheEntry`. -/
structure DomainCacheEntry where
  domain : Str
  lastChecked : Str
  success : Bool
  error : Option Str := none
deriving DecidableEq

/-- `src/cache.ts` `updateOrAddCacheEntry`: `findIndex` on the domain, then either
`[...cache.slice(0, index), entry, ...cache.slice(index + 1)]` or `[...cache, entry]`. -/
def updateOrAddCacheEntry (entry : DomainCacheEntry) (cache : List DomainCacheEntry) :
    List DomainCacheEntry :=
  match cache.findIdx? (fun c => decide (c.domain = entry.domain)) with
  | some i => cache.take i ++ entry :: cache.drop (i + 1)
  | none => cache ++ [entry]

/-- A whole run of upserts, starting from the empty ledger. -/
def upsertAll (entries : List DomainCacheEntry) : List DomainCacheEntry :=
  entries.foldl (fun cache e => updateOrAddCacheEntry e cache) []

@[simp] theorem updateOrAddCacheEntry_nil (entry : DomainCacheEntry) :
    updateOrAddCacheEntry entry [] = [entry] := rfl

theorem updateOrAddCacheEntry_cons (entry c : DomainCacheEntry)
    (rest : List DomainCacheEntry) :
    updateOrAddCacheEntry entry (c :: rest) =
      if c.domain = entry.domain then entry :: rest
      else c :: updateOrAddCacheEntry entry rest := by
  by_cases h : c.domain = entry.domain
  · simp [updateOrAddCacheEntry, List.findIdx?_cons, h]
  · rw [updateOrAddCacheEntry, updateOrAddCacheEntry]
    cases hfi : rest.findIdx? (fun c => decide (c.domain = entry.domain)) with
    | none =>
      rw [List.findIdx?_cons, List.findIdx?_start_succ, hfi]
      simp [h]
    | some i =>
      rw [List.findIdx?_cons, List.findIdx?_start_succ, hfi]
      simp [h]

theorem updateOrAddCacheEntry_not_mem (entry : DomainCacheEntry)
    (cache : List DomainCacheEntry) (h : entry.domain ∉ cache.map (·.domain)) :
    updateOrAddCacheEntry entry cache = cache ++ [entry] := by
  induction cache with
  | nil => rfl
  | cons c rest ih =>
    rw [updateOrAddCacheEntry_cons]
    simp only [List.map_cons, List.mem_cons] at h
    push_neg at h
    rw [if_neg fun hc => h.1 hc.symm, ih h.2]
    simp

theorem updateOrAddCacheEntry_replace (entry old : DomainCacheEntry)
    (pre post : List DomainCacheEntry) (hold : old.domain = entry.domain)
    (hpre : entry.domain ∉ pre.map (·.domain)) :
    updateOrAddCacheEntry entry (pre ++ old :: post) = pre ++ entry :: post := by
  induction pre with
  | nil =>
    simp only [List.nil_append]
    rw [updateOrAddCacheEntry_cons, if_pos hold]
  | cons c rest ih =>
    simp only [List.map_cons, List.mem_cons] at hpre
    push_neg at hpre
    rw [List.cons_append, updateOrAddCacheEntry_cons, if_neg fun hc => hpre.1 hc.symm,
      ih hpre.2, List.cons_append]

theorem updateOrAddCacheEntry_map_domain (entry : DomainCacheEntry)
    (cache : List DomainCacheEntry) :
    (updateOrAddCacheEntry entry cache).map (·.domain) =
      if entry.domain ∈ cache.map (·.domain) then cache.map (·.domain)
      else cache.map (·.domain) ++ [entry.domain] := by
  induction cache with
  | nil => rfl
  | cons c rest ih =>
    rw [updateOrAddCacheEntry_cons]
    by_cases h : c.domain = entry.domain
    · rw [if_pos h]
      simp [h]
    · rw [if_neg h]
      simp only [List.map_cons, ih]
      by_cases hmem : entry.domain ∈ rest.map (·.domain)
      · rw [if_pos hmem, if_pos (by simp [hmem])]
      · have hnotc : entry.domain ∉ c.domain :: rest.map (·.domain) := by
          simp only [List.mem_cons]
          push_neg
          exact ⟨fun hc => h hc.symm, hmem⟩
        rw [if_neg hmem, if_neg hnotc, List.cons_append]

theorem upsertAll_go_nodup_mem (entries : List DomainCacheEntry) :
    ∀ cache : List DomainCacheEntry, (cache.map (·.domain)).Nodup →
      ((entries.foldl (fun c e => updateOrAddCacheEntry e c) cache).map (·.domain)).Nodup ∧
        ∀ x, x ∈ (entries.foldl (fun c e => updateOrAddCacheEntry e c) cache).map (·.domain) ↔
          x ∈ cache.map (·.domain) ∨ x ∈ entries.map (·.domain) := by
  induction entries with
  | nil =>
    intro cache hnd
    refine ⟨hnd, fun x => ?_⟩
    simp
  | cons e rest ih =>
    intro cache hnd
    have hstep := updateOrAddCacheEntry_map_domain e cache
    have hnd' : ((updateOrAddCacheEntry e cache).map (·.domain)).Nodup := by
      rw [hstep]
      by_cases hmem : e.domain ∈ cache.map (·.domain)
      · rwa [if_pos hmem]
      · rw [if_neg hmem]
        exact List.Nodup.append hnd (List.nodup_singleton _)
          (List.disjoint_singleton.mpr hmem)
    obtain ⟨hnd2, hmem2⟩ := ih (updateOrAddCacheEntry e cache) hnd'
    refine ⟨hnd2, fun x => ?_⟩
    rw [List.foldl_cons] at *
    rw [hmem2 x, hstep]
    by_cases hmem : e.domain ∈ cache.map (·.domain)
    · rw [if_pos hmem]
      simp only [List.map_cons, List.mem_cons]
      constructor
      · rintro (hx | hx)
        · exact Or.inl hx
        · exact Or.inr (Or.inr hx)
      · rintro (hx | hx | hx)
        · exact Or.inl hx
        · exact Or.inl (hx ▸ hmem)
        · exact Or.inr hx
    · rw [if_neg hmem]
      simp only [List.mem_append, List.mem_singleton, List.map_cons, List.mem_cons]
      tauto

/-- C8: `updateOrAddCacheEntry` replaces the (first) entry for `entry.domain` in place,
leaving every other entry unchanged and in order, and appends when the domain is absent;
consequently a run of upserts from the empty ledger never produces two entries for one
domain, and its size equals the number of distinct domains upserted. -/
theorem updateOrAddCacheEntry_spec (entry old : DomainCacheEntry)
    (cache pre post entries : List DomainCacheEntry) :
    (entry.domain ∉ cache.map (·.domain) →
        updateOrAddCacheEntry entry cache = cache ++ [entry]) ∧
      (old.domain = entry.domain → entry.domain ∉ pre.map (·.domain) →
        updateOrAddCacheEntry entry (pre ++ old :: post) = pre ++ entry :: post) ∧
      ((upsertAll entries).map (·.domain)).Nodup ∧
      (upsertAll entries).length = ((entries.map (·.domain)).dedup).length := by
  obtain ⟨hnd, hmem⟩ := upsertAll_go_nodup_mem entries [] (by simp)
  refine ⟨updateOrAddCacheEntry_not_mem entry cache,
    fun hold hpre => updateOrAddCacheEntry_replace entry old pre post hold hpre, hnd, ?_⟩
  have hseteq : ((upsertAll entries).map (·.domain)).toFinset =
      ((entries.map (·.domain)).dedup).toFinset := by
    ext x
    simp only [List.mem_toFinset, List.mem_dedup]
    rw [show (upsertAll entries) = entries.foldl (fun c e => updateOrAddCacheEntry e c) [] from rfl,
      hmem x]
    simp
  have h1 : ((upsertAll entries).map (·.domain)).toFinset.card =
      ((upsertAll entries).map (·.domain)).length := List.toFinset_card_of_nodup hnd
  have h2 : ((entries.map (·.domain)).dedup).toFinset.card =
      ((entries.map (·.domain)).dedup).length :=
    List.toFinset_card_of_nodup (List.nodup_dedup _)
  rw [← List.length_map (upsertAll entries) (·.domain), ← h1, hseteq, h2]

def cacheEntryA : DomainCacheEntry := { domain := ['a'], lastChecked := ['1'], success := true }

def cacheEntryA2 : DomainCacheEntry := { domain := ['a'], lastChecked := ['3'], success := true }

def cacheEntryB : DomainCacheEntry := { domain := ['b'], lastChecked := ['1'], success := false }

def cacheEntryC : DomainCacheEntry := { domain := ['c'], lastChecked := ['2'], success := true }

/-- Witness for C8 at concrete ledgers. -/
theorem updateOrAddCacheEntry_spec_witness :
    (cacheEntryA.domain ∉ [cacheEntryB].map (·.domain) ∧
        updateOrAddCacheEntry cacheEntryA [cacheEntryB] = [cacheEntryB] ++ [cacheEntryA]) ∧
      (cacheEntryA2.domain = cacheEntryA.domain ∧
        cacheEntryA.domain ∉ [cacheEntryB].map (·.domain) ∧
        updateOrAddCacheEntry cacheEntryA ([cacheEntryB] ++ cacheEntryA2 :: [cacheEntryC]) =
          [cacheEntryB] ++ cacheEntryA :: [cacheEntryC]) ∧
      ((upsertAll [cacheEntryA, cacheEntryB, cacheEntryA2]).map (·.domain)).Nodup ∧
      (upsertAll [cacheEntryA, cacheEntryB, cacheEntryA2]).length =
        (([cacheEntryA, cacheEntryB, cacheEntryA2].map (·.domain)).dedup).length := by
  have h := updateOrAddCacheEntry_spec cacheEntryA cacheEntryA2 [cacheEntryB] [cacheEntryB]
    [cacheEntryC] [cacheEntryA, cacheEntryB, cacheEntryA2]
  exact ⟨⟨by decide, h.1 (by decide)⟩, ⟨by decide, by decide, h.2.1 (by decide) (by decide)⟩,
    h.2.2.1, h.2.2.2⟩

-- ## Result normalization (src/utils/normalizeResults.ts)

/-- `src/types.ts` `DomainOwnerInfo`. -/
structure DomainOwnerInfo where
  name : Str
  displayName : Option Str := none
  country : Option Str := none
deriving DecidableEq

/-- `Omit<DomainInputEntry, "url">`: the metadata carried along with each scan result. -/
structure DomainMetadata where
  owner : Option DomainOwnerInfo := none
  category : Option Str := none
  language : Option Str := none
deriving DecidableEq

/-- One element of `ScanResult.trackers`. -/
structure RawTracker where
  domain : Str
  info : TrackerInfo
deriving DecidableEq

/-- `src/types.ts` `ScanResult` (the intermediate, per-site scan output). -/
structure ScanResult where
  requestedUrl : Str
  finalUrl : Str
  domain : Str
  timestamp : Str
  screenshotPath : Option Str
  totalSize : Nat
  resourceUrls : List Str
  trackers : List RawTracker
  error : Option Str := none
  domainMetadata : Option DomainMetadata := none
deriving DecidableEq

/-- `src/types.ts` `NormalizedScanResult`. -/
structure NormalizedScanResult where
  requestedUrl : Str
  finalUrl : Str
  domain : Str
  timestamp : Str
  screenshotPath : Option Str
  totalSize : Nat
  trackerDomains : List Str
  error : Option Str := none
  domainMetadata : Option DomainMetadata := none
deriving DecidableEq

/-- `src/types.ts` `FinalOutput`.  `generationTimestamp` (wall clock) and `sourceFile`
(path metadata) are I/O-boundary fields with no bearing on any claim and are omitted. -/
structure FinalOutput where
  allTrackers : List (Str × TrackerInfo)
  scanResults : List NormalizedScanResult
deriving DecidableEq

/-- The conditional insertion in the inner loop of `normalizeResults`:
`if (!allTrackers[trackerDomain]) { allTrackers[trackerDomain] = trackerInfo; }`. -/
def insertTrackerInfo (allTrackers : List (Str × TrackerInfo)) (tr : RawTracker) :
    List (Str × TrackerInfo) :=
  if (mapGet allTrackers tr.domain).isNone then mapSet allTrackers tr.domain tr.info
  else allTrackers

/-- The per-site record produced by `normalizeResults` (tracker info replaced by the
unconditionally-pushed list of tracker domains; `resourceUrls` dropped). -/
def toNormalizedResult (r : ScanResult) : NormalizedScanResult :=
  { requestedUrl := r.requestedUrl, finalUrl := r.finalUrl, domain := r.domain,
    timestamp := r.timestamp, screenshotPath := r.screenshotPath, totalSize := r.totalSize,
    trackerDomains := r.trackers.map (·.domain), error := r.error,
    domainMetadata := r.domainMetadata }

/-- The main loop of `normalizeResults`, accumulating the global dictionary and the
normalized result list in input order. -/
def normalizeGo : List ScanResult → List (Str × TrackerInfo) → List NormalizedScanResult →
    FinalOutput
  | [], allTrackers, outs => { allTrackers := allTrackers, scanResults := outs }
  | r :: rest, allTrackers, outs =>
    normalizeGo rest (r.trackers.foldl insertTrackerInfo allTrackers)
      (outs ++ [toNormalizedResult r])

/-- `src/utils/normalizeResults.ts` `normalizeResults`. -/
def normalizeResults (intermediateResults : List ScanResult) : FinalOutput :=
  normalizeGo intermediateResults [] []

@[simp] theorem mapGet_mapSet_self {β : Type} (m : List (Str × β)) (k : Str) (v : β) :
    mapGet (mapSet m k v) k = some v := by
  induction m with
  | nil => simp [mapGet, mapSet]
  | cons p rest ih =>
    rw [mapSet]
    by_cases h : p.1 = k
    · rw [if_pos h, mapGet, if_pos rfl]
    · rw [if_neg h, mapGet, if_neg h]
      exact ih

theorem mapGet_mapSet_ne {β : Type} (m : List (Str × β)) {k k' : Str} (v : β)
    (h : k ≠ k') : mapGet (mapSet m k v) k' = mapGet m k' := by
  induction m with
  | nil => simp [mapGet, mapSet, h]
  | cons p rest ih =>
    rw [mapSet]
    by_cases hp : p.1 = k
    · rw [if_pos hp, mapGet, if_neg h, mapGet, if_neg (hp ▸ h)]
    · rw [if_neg hp, mapGet, mapGet]
      by_cases hp' : p.1 = k'
      · rw [if_pos hp', if_pos hp']
      · rw [if_neg hp', if_neg hp']
        exact ih

theorem foldl_insertTrackerInfo_mapGet (trs : List RawTracker)
    (m : List (Str × TrackerInfo)) (dom : Str) :
    mapGet (trs.foldl insertTrackerInfo m) dom =
      match mapGet m dom with
      | some v => some v
      | none => (trs.find? (fun tr => decide (tr.domain = dom))).map (·.info) := by
  induction trs generalizing m with
  | nil =>
    cases hm : mapGet m dom with
    | none => simp [hm]
    | some v => simp [hm]
  | cons tr trs ih =>
    rw [List.foldl_cons, ih, List.find?_cons]
    cases hm : mapGet m dom with
    | some v =>
      have hins : mapGet (insertTrackerInfo m tr) dom = some v := by
        rw [insertTrackerInfo]
        by_cases hd : tr.domain = dom
        · rw [hd, hm]
          simp [hm]
        · by_cases habs : (mapGet m tr.domain).isNone
          · rw [if_pos habs, mapGet_mapSet_ne m tr.info hd, hm]
          · rw [if_neg habs, hm]
      rw [hins]
    | none =>
      by_cases hd : tr.domain = dom
      · have hins : mapGet (insertTrackerInfo m tr) dom = some tr.info := by
          rw [insertTrackerInfo, hd, hm]
          simp
        rw [hins]
        simp [hd]
      · have hins : mapGet (insertTrackerInfo m tr) dom = none := by
          rw [insertTrackerInfo]
          by_cases habs : (mapGet m tr.domain).isNone
          · rw [if_pos habs, mapGet_mapSet_ne m tr.info hd, hm]
          · rw [if_neg habs, hm]
        rw [hins]
        simp [hd]

theorem normalizeGo_mapGet (rs : List ScanResult) (m : List (Str × TrackerInfo))
    (outs : List NormalizedScanResult) (dom : Str) :
    mapGet (normalizeGo rs m outs).allTrackers dom =
      match mapGet m dom with
      | some v => some v
      | none => ((rs.flatMap (·.trackers)).find? (fun tr => decide (tr.domain = dom))).map (·.info) := by
  induction rs generalizing m outs with
  | nil =>
    cases hm : mapGet m dom with
    | none => simp [normalizeGo, hm]
    | some v => simp [normalizeGo, hm]
  | cons r rest ih =>
    rw [normalizeGo, ih, List.flatMap_cons, List.find?_append, foldl_insertTrackerInfo_mapGet]
    cases hm : mapGet m dom with
    | some v => simp [hm]
    | none =>
      cases hf : (r.trackers.find? (fun tr => decide (tr.domain = dom))) with
      | some tr => simp [hf]
      | none => simp [hf]

/-- C5: the global `allTrackers` dictionary built by `normalizeResults` is
first-site-wins: for every tracker domain, the stored info is exactly the info attached
to the *first* occurrence of that domain — scanning results in order and each result's
trackers in order — and later sightings (even with different info) never overwrite it. -/
theorem normalizeResults_first_site_wins (results : List ScanResult) (dom : Str) :
    mapGet (normalizeResults results).allTrackers dom =
      ((results.flatMap (·.trackers)).find? (fun tr => decide (tr.domain = dom))).map (·.info) := by
  rw [normalizeResults, normalizeGo_mapGet]
  simp

-- ## C1: the `rules` attribute survives normalization (a code bug w.r.t. the spec)

/-- A registry entry that still carries a `rules` array, as `findTrackerInfo` returns
registry entries verbatim and nothing in the pipeline strips `rules`. -/
def infoWithRules : TrackerInfo :=
  { owner := ['O'], prevalence := 1, rules := some [['r', '1']] }

/-- A raw scan result whose single tracker carries `infoWithRules`. -/
def rawResultWithRules : ScanResult :=
  { requestedUrl := ['u'], finalUrl := ['u'], domain := ['s', '.', 'c', 'o'],
    timestamp := ['t'], screenshotPath := none, totalSize := 0, resourceUrls := [],
    trackers := [⟨['t', '.', 'c', 'o'], infoWithRules⟩] }

/-- C1 fails on the code: `normalizeResults` copies `tracker.info` verbatim into
`allTrackers`, so an info carrying a `rules` array is persisted with its `rules` intact.
(The `Omit<TrackerInfo, "rules">` annotation in src/types.ts is compile-time only; no
code ever strips the attribute.) -/
theorem normalizeResults_retains_rules :
    mapGet (normalizeResults [rawResultWithRules]).allTrackers ['t', '.', 'c', 'o'] =
        some infoWithRules ∧
      infoWithRules.rules = some [['r', '1']] :=
  ⟨rfl, rfl⟩

-- ## Analytics aggregation (src/scripts/analytics.ts)

/-- JavaScript truthiness of an optional string (`undefined` and `""` are falsy). -/
def truthyStr : Option Str → Bool
  | some s => !s.isEmpty
  | none => false

/-- `x || dflt` on an optional string field. -/
def strOrDefault (s : Option Str) (dflt : Str) : Str :=
  match s with
  | some v => if v.isEmpty then dflt else v
  | none => dflt

def unknownOwner : Str :=
  ['U', 'n', 'k', 'n', 'o', 'w', 'n', ' ', 'O', 'w', 'n', 'e', 'r']

def unknownCategory : Str :=
  ['U', 'n', 'k', 'n', 'o', 'w', 'n', ' ', 'C', 'a', 't', 'e', 'g', 'o', 'r', 'y']

def unknownCountry : Str :=
  ['U', 'n', 'k', 'n', 'o', 'w', 'n', ' ', 'C', 'o', 'u', 'n', 't', 'r', 'y']

/-- `parseFloat(x.toFixed(2))`: round to two decimal places, ties away from zero
(all rounded quantities in the engine are non-negative). -/
def round2 (q : Rat) : Rat := ((⌊q * 100 + 1 / 2⌋ : Int) : Rat) / 100

/-- `Math.round`. -/
def roundHalfUp (q : Rat) : Int := ⌊q + 1 / 2⌋

/-- An entry of a ranked "top N" list. -/
structure FrequencyItem where
  name : Str
  count : Nat
  percentage : Rat
deriving DecidableEq

/-- The `.map` step of `getTopN`:
`{ name, count, percentage: parseFloat(((count / total) * 100).toFixed(2)) }`. -/
def mkFrequencyItem (total : Rat) (p : Str × Nat) : FrequencyItem :=
  { name := p.1, count := p.2, percentage := round2 (((p.2 : Rat) / total) * 100) }

/-- One insertion step of a stable descending sort by count: the new element goes after
every earlier element with a strictly larger count and before the first element whose
count is ≤ its own (so original order is kept among equal counts). -/
def insertByCount (x : Str × Nat) : List (Str × Nat) → List (Str × Nat)
  | [] => [x]
  | y :: ys => if x.2 < y.2 then y :: insertByCount x ys else x :: y :: ys

/-- `Array.prototype.sort` with comparator `(a, b) => countB - countA`.  The JavaScript
sort is stable (ES2019), and a stable descending sort has a unique result, here realised
as an insertion sort. -/
def sortByCountDesc : List (Str × Nat) → List (Str × Nat)
  | [] => []
  | x :: xs => insertByCount x (sortByCountDesc xs)

/-- `src/scripts/analytics.ts` `getTopN` (the call sites pass `n` explicitly). -/
def getTopN (m : List (Str × Nat)) (total : Rat) (n : Nat) : List FrequencyItem :=
  ((sortByCountDesc m).take n).map (mkFrequencyItem total)

-- Index-decorated copies of the sort, used to state sortedness and stability.

def enumF {α : Type} : Nat → List α → List (Nat × α)
  | _, [] => []
  | i, x :: xs => (i, x) :: enumF (i + 1) xs

def insertByCountE (x : Nat × (Str × Nat)) :
    List (Nat × (Str × Nat)) → List (Nat × (Str × Nat))
  | [] => [x]
  | y :: ys => if x.2.2 < y.2.2 then y :: insertByCountE x ys else x :: y :: ys

def sortByCountDescE : List (Nat × (Str × Nat)) → List (Nat × (Str × Nat))
  | [] => []
  | x :: xs => insertByCountE x (sortByCountDescE xs)

/-- The ranking order C9 describes on index-decorated entries: strictly larger count
first, ties broken by smaller original index (insertion order). -/
def countIdxOrder (a b : Nat × (Str × Nat)) : Prop :=
  b.2.2 < a.2.2 ∨ (a.2.2 = b.2.2 ∧ a.1 < b.1)

-- ### Aggregation state (the local accumulators of generateAnalyticsInternal)

/-- `categoryData` / `countryData` entries: `{ siteDomains: Set, trackerInstances }`. -/
structure GroupAcc where
  siteDomains : List Str
  trackerInstances : Nat
deriving DecidableEq

/-- One value of `analysisByCategory` / `analysisByCountry`. -/
structure GroupAnalysis where
  siteCount : Nat
  totalTrackerInstances : Nat
  averageTrackersPerSite : Rat
  topTrackerOwners : List FrequencyItem
deriving DecidableEq

/-- The `summary` block of the report. -/
structure SummaryStats where
  totalSitesProcessed : Nat
  sitesWithErrors : Nat
  sitesWithTrackers : Nat
  totalTrackerInstances : Nat
  totalUniqueTrackerDomains : Nat
  totalUniqueTrackerOwners : Nat
  averageTrackersPerSite : Rat
  averageUniqueTrackerDomainsPerSite : Rat
  averageUniqueTrackerOwnersPerSite : Rat
  averagePageSizeBytes : Int
deriving DecidableEq

/-- The `trackerCountDistribution` block. -/
structure Distribution where
  min : Nat
  max : Nat
  median : Rat
  mean : Rat
deriving DecidableEq

/-- `AnalyticsOutput` (`generationTimestamp` and `inputFile` are I/O metadata, omitted).
`analysisByCategory`/`analysisByCountry` are `undefined` (`none`) when empty. -/
structure AnalyticsOutput where
  summary : SummaryStats
  trackerCountDistribution : Distribution
  topTrackerDomains : List FrequencyItem
  topTrackerOwners : List FrequencyItem
  topTrackerCategories : List FrequencyItem
  analysisByCategory : Option (List (Str × GroupAnalysis))
  analysisByCountry : Option (List (Str × GroupAnalysis))
deriving DecidableEq

/-- The mutable locals of `generateAnalyticsInternal`, threaded through its main loop. -/
structure AnalyticsState where
  sitesWithErrors : Nat
  sitesWithTrackers : Nat
  totalTrackerInstances : Nat
  totalPageSize : Nat
  allTrackerCounts : List Nat
  uniqueDomainsPerSite : List Nat
  uniqueOwnersPerSite : List Nat
  trackerDomainSiteMap : List (Str × List Str)
  trackerOwnerSiteMap : List (Str × List Str)
  trackerCategoryInstanceMap : List (Str × Nat)
  categoryData : List (Str × GroupAcc)
  countryData : List (Str × GroupAcc)
  countryOwnerMap : List (Str × List (Str × List Str))
  categoryOwnerMap : List (Str × List (Str × List Str))
deriving DecidableEq

def initState : AnalyticsState :=
  ⟨0, 0, 0, 0, [], [], [], [], [], [], [], [], [], []⟩

/-- `if (!map.has(k)) map.set(k, new Set()); map.get(k).add(site)`. -/
def addSiteTo (m : List (Str × List Str)) (key site : Str) : List (Str × List Str) :=
  mapSet m key (addToSet ((mapGet m key).getD []) site)

/-- `map.set(category, (map.get(category) || 0) + 1)`. -/
def bumpCategoryCount (m : List (Str × Nat)) (c : Str) : List (Str × Nat) :=
  mapSet m c ((mapGet m c).getD 0 + 1)

/-- `if (!data.has(k)) data.set(k, { siteDomains: new Set(), trackerInstances: 0 });
data.get(k).siteDomains.add(site); data.get(k).trackerInstances += 1`. -/
def bumpGroup (m : List (Str × GroupAcc)) (key site : Str) : List (Str × GroupAcc) :=
  let g := (mapGet m key).getD ⟨[], 0⟩
  mapSet m key ⟨addToSet g.siteDomains site, g.trackerInstances + 1⟩

/-- The nested `countryOwnerMap`/`categoryOwnerMap` update. -/
def bumpNested (m : List (Str × List (Str × List Str))) (k1 k2 site : Str) :
    List (Str × List (Str × List Str)) :=
  mapSet m k1 (addSiteTo ((mapGet m k1).getD []) k2 site)

/-- The body of `result.trackerDomains.forEach(...)`: look the domain up in
`allTrackers`; on a miss, log and skip (the accumulators are untouched); on a hit,
update every frequency and grouping structure.  The second accumulator component is the
per-site `siteUniqueOwners` set. -/
def processTracker (allTrackers : List (Str × TrackerInfo)) (result : NormalizedScanResult)
    (acc : AnalyticsState × List Str) (trackerDomain : Str) : AnalyticsState × List Str :=
  match mapGet allTrackers trackerDomain with
  | none => acc
  | some info =>
    let st := acc.1
    let ownerName := if info.owner.isEmpty then unknownOwner else info.owner
    let categories := info.categories.getD []
    let category := strOrDefault (result.domainMetadata.bind (·.category)) unknownCategory
    let country :=
      strOrDefault ((result.domainMetadata.bind (·.owner)).bind (·.country)) unknownCountry
    ({ st with
        trackerDomainSiteMap := addSiteTo st.trackerDomainSiteMap trackerDomain result.domain,
        trackerOwnerSiteMap := addSiteTo st.trackerOwnerSiteMap ownerName result.domain,
        trackerCategoryInstanceMap :=
          categories.foldl bumpCategoryCount st.trackerCategoryInstanceMap,
        categoryData := bumpGroup st.categoryData category result.domain,
        countryData := bumpGroup st.countryData country result.domain,
        countryOwnerMap := bumpNested st.countryOwnerMap country ownerName result.domain,
        categoryOwnerMap := bumpNested st.categoryOwnerMap category ownerName result.domain },
      addToSet acc.2 ownerName)

/-- The counter updates at the top of each `for (const result of scanResults)` iteration:
errors, page size, and the tracker counts taken from `result.trackerDomains.length`
*before* any dictionary lookup. -/
def preTrackerState (st : AnalyticsState) (result : NormalizedScanResult) : AnalyticsState :=
  let st :=
    if truthyStr result.error then { st with sitesWithErrors := st.sitesWithErrors + 1 }
    else st
  let st := { st with totalPageSize := st.totalPageSize + result.totalSize }
  let currentTrackerCount := result.trackerDomains.length
  let st :=
    if 0 < currentTrackerCount then { st with sitesWithTrackers := st.sitesWithTrackers + 1 }
    else st
  { st with
      allTrackerCounts := st.allTrackerCounts ++ [currentTrackerCount],
      totalTrackerInstances := st.totalTrackerInstances + currentTrackerCount }

/-- One iteration of `for (const result of scanResults)`: bump the counters, process
every tracker domain of the site (dangling references are skipped inside
`processTracker`), then push the per-site unique counts. -/
def processResult (allTrackers : List (Str × TrackerInfo)) (st : AnalyticsState)
    (result : NormalizedScanResult) : AnalyticsState :=
  let inner :=
    result.trackerDomains.foldl (processTracker allTrackers result)
      (preTrackerState st result, [])
  { inner.1 with
      uniqueDomainsPerSite :=
        inner.1.uniqueDomainsPerSite ++ [(result.trackerDomains.dedup).length],
      uniqueOwnersPerSite := inner.1.uniqueOwnersPerSite ++ [inner.2.length] }

/-- The state after the main loop. -/
def analyticsState (allTrackers : List (Str × TrackerInfo))
    (rs : List NormalizedScanResult) : AnalyticsState :=
  rs.foldl (processResult allTrackers) initState

/-- `Object.values(allTrackers)` folded through
`if (info?.owner) add(info.owner) else add("Unknown Owner")`. -/
def uniqueOwnerNames (allTrackers : List (Str × TrackerInfo)) : List Str :=
  allTrackers.foldl
    (fun s p => if p.2.owner.isEmpty then addToSet s unknownOwner else addToSet s p.2.owner) []

def listMin : List Nat → Nat
  | [] => 0
  | x :: xs => xs.foldl Nat.min x

def listMax : List Nat → Nat
  | [] => 0
  | x :: xs => xs.foldl Nat.max x

def insertNatAsc (x : Nat) : List Nat → List Nat
  | [] => [x]
  | y :: ys => if x ≤ y then x :: y :: ys else y :: insertNatAsc x ys

def sortNatAsc : List Nat → List Nat
  | [] => []
  | x :: xs => insertNatAsc x (sortNatAsc xs)

/-- `src/scripts/analytics.ts` `calculateMedian`. -/
def calculateMedian (numbers : List Nat) : Rat :=
  if numbers.isEmpty then 0
  else
    let sorted := sortNatAsc numbers
    let mid := sorted.length / 2
    if sorted.length % 2 ≠ 0 then ((sorted.getD mid 0 : Nat) : Rat)
    else (((sorted.getD (mid - 1) 0 : Nat) : Rat) + ((sorted.getD mid 0 : Nat) : Rat)) / 2

/-- The `analysisByCategory`/`analysisByCountry` construction loop:
skip empty groups, rank each group's own owners with `getTopN(ownerCounts, siteCount, 5)`. -/
def buildGroupAnalysis (groupData : List (Str × GroupAcc))
    (ownerMap : List (Str × List (Str × List Str))) : List (Str × GroupAnalysis) :=
  groupData.foldl
    (fun acc p =>
      let siteCount := p.2.siteDomains.length
      if siteCount = 0 then acc
      else
        let ownerCounts := ((mapGet ownerMap p.1).getD []).map (fun q => (q.1, q.2.length))
        acc ++
          [(p.1,
            { siteCount := siteCount,
              totalTrackerInstances := p.2.trackerInstances,
              averageTrackersPerSite :=
                round2 ((p.2.trackerInstances : Rat) / (siteCount : Rat)),
              topTrackerOwners := getTopN ownerCounts (siteCount : Rat) 5 })])
    []

/-- `"Cannot generate analytics: No results found in input."` -/
def errNoResults : Str :=
  ['C', 'a', 'n', 'n', 'o', 't', ' ', 'g', 'e', 'n', 'e', 'r', 'a', 't', 'e', ' ',
   'a', 'n', 'a', 'l', 'y', 't', 'i', 'c', 's', ':', ' ', 'N', 'o', ' ',
   'r', 'e', 's', 'u', 'l', 't', 's', ' ', 'f', 'o', 'u', 'n', 'd', ' ',
   'i', 'n', ' ', 'i', 'n', 'p', 'u', 't', '.']

/-- `src/scripts/analytics.ts` `generateAnalyticsInternal`: throw on an empty dataset
(modelled as `Except.error`), otherwise aggregate and assemble the report. -/
def generateAnalytics (data : FinalOutput) : Except Str AnalyticsOutput :=
  let totalSitesProcessed := data.scanResults.length
  if totalSitesProcessed = 0 then .error errNoResults
  else
    let totalUniqueTrackerOwners := (uniqueOwnerNames data.allTrackers).length
    let totalUniqueTrackerDomains := data.allTrackers.length
    let st := analyticsState data.allTrackers data.scanResults
    let trackerDomainCounts := st.trackerDomainSiteMap.map (fun p => (p.1, p.2.length))
    let trackerOwnerCounts := st.trackerOwnerSiteMap.map (fun p => (p.1, p.2.length))
    let averageTrackersPerSite :=
      round2 ((st.totalTrackerInstances : Rat) / (totalSitesProcessed : Rat))
    let summary : SummaryStats :=
      { totalSitesProcessed := totalSitesProcessed,
        sitesWithErrors := st.sitesWithErrors,
        sitesWithTrackers := st.sitesWithTrackers,
        totalTrackerInstances := st.totalTrackerInstances,
        totalUniqueTrackerDomains := totalUniqueTrackerDomains,
        totalUniqueTrackerOwners := totalUniqueTrackerOwners,
        averageTrackersPerSite := averageTrackersPerSite,
        averageUniqueTrackerDomainsPerSite :=
          round2 ((st.uniqueDomainsPerSite.sum : Rat) / (totalSitesProcessed : Rat)),
        averageUniqueTrackerOwnersPerSite :=
          round2 ((st.uniqueOwnersPerSite.sum : Rat) / (totalSitesProcessed : Rat)),
        averagePageSizeBytes :=
          roundHalfUp ((st.totalPageSize : Rat) / (totalSitesProcessed : Rat)) }
    let trackerCountDistribution : Distribution :=
      { min := if 0 < st.allTrackerCounts.length then listMin st.allTrackerCounts else 0,
        max := if 0 < st.allTrackerCounts.length then listMax st.allTrackerCounts else 0,
        median := calculateMedian st.allTrackerCounts,
        mean := averageTrackersPerSite }
    let analysisByCategory := buildGroupAnalysis st.categoryData st.categoryOwnerMap
    let analysisByCountry := buildGroupAnalysis st.countryData st.countryOwnerMap
    .ok
      { summary := summary,
        trackerCountDistribution := trackerCountDistribution,
        topTrackerDomains := getTopN trackerDomainCounts (totalSitesProcessed : Rat) 20,
        topTrackerOwners := getTopN trackerOwnerCounts (totalSitesProcessed : Rat) 20,
        topTrackerCategories :=
          getTopN st.trackerCategoryInstanceMap (st.totalTrackerInstances : Rat) 20,
        analysisByCategory :=
          if analysisByCategory.isEmpty then none else some analysisByCategory,
        analysisByCountry :=
          if analysisByCountry.isEmpty then none else some analysisByCountry }

/-- C7: `generateAnalyticsInternal` fails if and only if the dataset has zero scan
results, and on every non-empty dataset it produces a complete report. -/
theorem generateAnalytics_fails_iff_empty (data : FinalOutput) :
    ((∃ msg, generateAnalytics data = .error msg) ↔ data.scanResults = []) ∧
      (data.scanResults ≠ [] → ∃ r, generateAnalytics data = .ok r) := by
  by_cases h : data.scanResults = []
  · refine ⟨⟨fun _ => h, fun _ => ⟨errNoResults, ?_⟩⟩, fun hne => absurd h hne⟩
    rw [generateAnalytics, if_pos (by simp [h])]
  · have hlen : ¬data.scanResults.length = 0 := by
      simpa [List.length_eq_zero] using h
    refine ⟨⟨?_, fun h0 => absurd h0 h⟩, fun _ => ?_⟩
    · rintro ⟨msg, hmsg⟩
      rw [generateAnalytics, if_neg hlen] at hmsg
      exact Except.noConfusion hmsg
    · exact ⟨_, by rw [generateAnalytics, if_neg hlen]⟩

def emptyOutput : FinalOutput := { allTrackers := [], scanResults := [] }

def resultNoTrackers : NormalizedScanResult :=
  { requestedUrl := ['u'], finalUrl := ['u'], domain := ['d'], timestamp := ['t'],
    screenshotPath := none, totalSize := 0, trackerDomains := [] }

def singleSiteOutput : FinalOutput :=
  { allTrackers := [], scanResults := [resultNoTrackers] }

/-- Witness for C7: the empty dataset fails, a one-site dataset succeeds. -/
theorem generateAnalytics_fails_iff_empty_witness :
    (∃ msg, generateAnalytics emptyOutput = .error msg) ∧
      ∃ r, generateAnalytics singleSiteOutput = .ok r :=
  ⟨(generateAnalytics_fails_iff_empty emptyOutput).1.mpr rfl,
   (generateAnalytics_fails_iff_empty singleSiteOutput).2
     (by simp [singleSiteOutput])⟩

-- ### C9: ranking is a stable descending sort with rounded percentages

theorem insertByCountE_map_snd (x : Nat × (Str × Nat)) (l : List (Nat × (Str × Nat))) :
    (insertByCountE x l).map (·.2) = insertByCount x.2 (l.map (·.2)) := by
  induction l with
  | nil => rfl
  | cons y ys ih =>
    simp only [insertByCountE, insertByCount, List.map_cons]
    by_cases h : x.2.2 < y.2.2
    · rw [if_pos h, if_pos h]
      simp [ih]
    · rw [if_neg h, if_neg h]
      simp

theorem sortByCountDescE_map_snd (l : List (Nat × (Str × Nat))) :
    (sortByCountDescE l).map (·.2) = sortByCountDesc (l.map (·.2)) := by
  induction l with
  | nil => rfl
  | cons x xs ih =>
    simp only [sortByCountDescE, sortByCountDesc, List.map_cons]
    rw [insertByCountE_map_snd, ih]

theorem enumF_map_snd {α : Type} (i : Nat) (m : List α) : (enumF i m).map (·.2) = m := by
  induction m generalizing i with
  | nil => rfl
  | cons p ps ih => simp [enumF, ih]

theorem insertByCountE_perm (x : Nat × (Str × Nat)) (l : List (Nat × (Str × Nat))) :
    (insertByCountE x l).Perm (x :: l) := by
  induction l with
  | nil => exact List.Perm.refl _
  | cons y ys ih =>
    simp only [insertByCountE]
    by_cases h : x.2.2 < y.2.2
    · rw [if_pos h]
      exact (ih.cons y).trans (List.Perm.swap x y ys)
    · rw [if_neg h]

theorem sortByCountDescE_perm (l : List (Nat × (Str × Nat))) :
    (sortByCountDescE l).Perm l := by
  induction l with
  | nil => exact List.Perm.refl _
  | cons x xs ih =>
    exact (insertByCountE_perm x (sortByCountDescE xs)).trans (ih.cons x)

theorem mem_enumF_le {α : Type} (x : Nat × α) :
    ∀ (i : Nat) (l : List α), x ∈ enumF i l → i ≤ x.1 := by
  intro i l
  induction l generalizing i with
  | nil => intro h; simp [enumF] at h
  | cons p ps ih =>
    intro h
    rcases List.mem_cons.mp h with rfl | h
    · exact Nat.le_refl _
    · exact Nat.le_of_succ_le (ih (i + 1) h)

theorem insertByCountE_pairwise {x : Nat × (Str × Nat)} {l : List (Nat × (Str × Nat))}
    (hl : l.Pairwise countIdxOrder) (hx : ∀ y ∈ l, x.1 < y.1) :
    (insertByCountE x l).Pairwise countIdxOrder := by
  induction l with
  | nil => simp [insertByCountE]
  | cons y ys ih =>
    rw [List.pairwise_cons] at hl
    obtain ⟨hy, hys⟩ := hl
    simp only [insertByCountE]
    by_cases h : x.2.2 < y.2.2
    · rw [if_pos h, List.pairwise_cons]
      refine ⟨fun z hz => ?_, ih hys fun w hw => hx w (List.mem_cons_of_mem _ hw)⟩
      rcases List.mem_cons.mp ((insertByCountE_perm x ys).mem_iff.mp hz) with rfl | hz
      · exact Or.inl h
      · exact hy z hz
    · rw [if_neg h, List.pairwise_cons]
      push_neg at h
      refine ⟨fun z hz => ?_, List.pairwise_cons.mpr ⟨hy, hys⟩⟩
      rcases List.mem_cons.mp hz with rfl | hz
      · rcases Nat.lt_or_ge z.2.2 x.2.2 with hlt | hge
        · exact Or.inl hlt
        · exact Or.inr ⟨Nat.le_antisymm hge h, hx z (List.mem_cons_self _ _)⟩
      · have hzy : z.2.2 < y.2.2 ∨ (y.2.2 = z.2.2 ∧ y.1 < z.1) := hy z hz
        have hz2 : z.2.2 ≤ y.2.2 := by
          rcases hzy with h1 | ⟨h1, -⟩
          · exact Nat.le_of_lt h1
          · exact Nat.le_of_eq h1.symm
        rcases Nat.lt_or_ge z.2.2 x.2.2 with hlt | hge
        · exact Or.inl hlt
        · exact Or.inr ⟨Nat.le_antisymm hge (Nat.le_trans hz2 h),
            hx z (List.mem_cons_of_mem _ hz)⟩

theorem sortByCountDescE_enumF_pairwise (m : List (Str × Nat)) :
    ∀ i : Nat, (sortByCountDescE (enumF i m)).Pairwise countIdxOrder := by
  induction m with
  | nil => intro i; simp [enumF, sortByCountDescE]
  | cons p ps ih =>
    intro i
    simp only [enumF, sortByCountDescE]
    apply insertByCountE_pairwise (ih (i + 1))
    intro y hy
    have hmem : y ∈ enumF (i + 1) ps := (sortByCountDescE_perm _).mem_iff.mp hy
    exact Nat.lt_of_succ_le (mem_enumF_le y (i + 1) ps hmem)

theorem getTopN_length_le (m : List (Str × Nat)) (total : Rat) (n : Nat) :
    (getTopN m total n).length ≤ n := by
  rw [getTopN, List.length_map]
  exact (List.length_take_le n _)

theorem buildGroupAnalysis_owners_le (gd : List (Str × GroupAcc))
    (om : List (Str × List (Str × List Str))) :
    ∀ q ∈ buildGroupAnalysis gd om, q.2.topTrackerOwners.length ≤ 5 := by
  rw [buildGroupAnalysis]
  have hgen : ∀ (l : List (Str × GroupAcc)) (acc : List (Str × GroupAnalysis)),
      (∀ q ∈ acc, q.2.topTrackerOwners.length ≤ 5) →
      ∀ q ∈ l.foldl
        (fun acc p =>
          let siteCount := p.2.siteDomains.length
          if siteCount = 0 then acc
          else
            let ownerCounts := ((mapGet om p.1).getD []).map (fun q => (q.1, q.2.length))
            acc ++
              [(p.1,
                { siteCount := siteCount,
                  totalTrackerInstances := p.2.trackerInstances,
                  averageTrackersPerSite :=
                    round2 ((p.2.trackerInstances : Rat) / (siteCount : Rat)),
                  topTrackerOwners := getTopN ownerCounts (siteCount : Rat) 5 })]) acc,
        q.2.topTrackerOwners.length ≤ 5 := by
    intro l
    induction l with
    | nil => intro acc hacc q hq; exact hacc q hq
    | cons p ps ih =>
      intro acc hacc q hq
      rw [List.foldl_cons] at hq
      by_cases hsc : p.2.siteDomains.length = 0
      · rw [if_pos hsc] at hq
        exact ih acc hacc q hq
      · rw [if_neg hsc] at hq
        refine ih _ (fun w hw => ?_) q hq
        rcases List.mem_append.mp hw with hw | hw
        · exact hacc w hw
        · rcases List.mem_singleton.mp hw with rfl
          exact getTopN_length_le _ _ _
  exact hgen gd [] (by simp)

/-- The top-20 / top-5 shape constraints on a produced report, as a decidable check. -/
def limitsOk (r : AnalyticsOutput) : Bool :=
  decide (r.topTrackerDomains.length ≤ 20) &&
    decide (r.topTrackerOwners.length ≤ 20) &&
    decide (r.topTrackerCategories.length ≤ 20) &&
    ((r.analysisByCategory.getD []).all fun g => decide (g.2.topTrackerOwners.length ≤ 5)) &&
    ((r.analysisByCountry.getD []).all fun g => decide (g.2.topTrackerOwners.length ≤ 5))

theorem group_option_all_owners_le (gd : List (Str × GroupAcc))
    (om : List (Str × List (Str × List Str))) :
    ((if (buildGroupAnalysis gd om).isEmpty then none
        else some (buildGroupAnalysis gd om)).getD []).all
      (fun g => decide (g.2.topTrackerOwners.length ≤ 5)) = true := by
  rw [List.all_eq_true]
  intro g hg
  by_cases he : (buildGroupAnalysis gd om).isEmpty
  · rw [if_pos he] at hg
    simp at hg
  · rw [if_neg he] at hg
    simp only [Option.getD_some] at hg
    exact decide_eq_true (buildGroupAnalysis_owners_le gd om g hg)

theorem generateAnalytics_limits (d : FinalOutput) :
    ((generateAnalytics d).toOption.map limitsOk).getD true = true := by
  by_cases h : d.scanResults.length = 0
  · rw [generateAnalytics, if_pos h]
    rfl
  · rw [generateAnalytics, if_neg h]
    show (Option.map limitsOk (Except.toOption (Except.ok _))).getD true = true
    rw [show ∀ (r : AnalyticsOutput), Except.toOption (Except.ok r) = some r from fun _ => rfl]
    rw [Option.map_some', Option.getD_some, limitsOk]
    simp only [Bool.and_eq_true, decide_eq_true_eq]
    refine ⟨⟨⟨⟨?_, ?_⟩, ?_⟩, ?_⟩, ?_⟩
    · exact getTopN_length_le _ _ _
    · exact getTopN_length_le _ _ _
    · exact getTopN_length_le _ _ _
    · exact group_option_all_owners_le _ _
    · exact group_option_all_owners_le _ _

/-- C9: `getTopN` is stable descending ranking.  The produced list is the first `n`
entries of the index-decorated sort (whose result is a permutation of the input entries,
pairwise ordered by strictly-descending count with ties broken by original insertion
order), each entry paired with its raw count and its percentage of the supplied
denominator rounded to two decimals; and every report ranks at most 20 global
domains/owners/categories while every per-category and per-country breakdown ranks at
most its own top 5 owners. -/
theorem getTopN_ranking_spec (m : List (Str × Nat)) (total : Rat) (n : Nat) :
    getTopN m total n =
        (((sortByCountDescE (enumF 0 m)).map (·.2)).take n).map (mkFrequencyItem total) ∧
      (sortByCountDescE (enumF 0 m)).Perm (enumF 0 m) ∧
      (sortByCountDescE (enumF 0 m)).Pairwise countIdxOrder ∧
      (getTopN m total n).length ≤ n ∧
      ∀ d : FinalOutput, ((generateAnalytics d).toOption.map limitsOk).getD true = true := by
  refine ⟨?_, sortByCountDescE_perm _, sortByCountDescE_enumF_pairwise m 0,
    getTopN_length_le m total n, generateAnalytics_limits⟩
  rw [getTopN, sortByCountDescE_map_snd, enumF_map_snd, List.map_take]

-- ### C10: dangling tracker references — counted in the summary, excluded from the maps

/-- A scan result with the tracker domains that miss `allTrackers` removed. -/
def filterDanglingResult (allTrackers : List (Str × TrackerInfo))
    (r : NormalizedScanResult) : NormalizedScanResult :=
  { r with trackerDomains := r.trackerDomains.filter (fun t => (mapGet allTrackers t).isSome) }

/-- A dataset with every dangling tracker reference removed. -/
def filterDangling (d : FinalOutput) : FinalOutput :=
  { d with scanResults := d.scanResults.map (filterDanglingResult d.allTrackers) }

/-- Equality of the seven frequency / grouping structures of two aggregation states. -/
def FreqMapsEq (s s' : AnalyticsState) : Prop :=
  s.trackerDomainSiteMap = s'.trackerDomainSiteMap ∧
    s.trackerOwnerSiteMap = s'.trackerOwnerSiteMap ∧
    s.trackerCategoryInstanceMap = s'.trackerCategoryInstanceMap ∧
    s.categoryData = s'.categoryData ∧
    s.countryData = s'.countryData ∧
    s.countryOwnerMap = s'.countryOwnerMap ∧
    s.categoryOwnerMap = s'.categoryOwnerMap

theorem freqMapsEq_refl (s : AnalyticsState) : FreqMapsEq s s :=
  ⟨rfl, rfl, rfl, rfl, rfl, rfl, rfl⟩

theorem freqMapsEq_trans {s t u : AnalyticsState} (h1 : FreqMapsEq s t)
    (h2 : FreqMapsEq t u) : FreqMapsEq s u := by
  unfold FreqMapsEq at *
  obtain ⟨a1, a2, a3, a4, a5, a6, a7⟩ := h1
  obtain ⟨b1, b2, b3, b4, b5, b6, b7⟩ := h2
  exact ⟨a1.trans b1, a2.trans b2, a3.trans b3, a4.trans b4, a5.trans b5, a6.trans b6,
    a7.trans b7⟩

theorem freqMapsEq_symm {s t : AnalyticsState} (h : FreqMapsEq s t) : FreqMapsEq t s := by
  unfold FreqMapsEq at *
  obtain ⟨a1, a2, a3, a4, a5, a6, a7⟩ := h
  exact ⟨a1.symm, a2.symm, a3.symm, a4.symm, a5.symm, a6.symm, a7.symm⟩

/-- A dangling tracker reference is skipped: the accumulators are left untouched. -/
theorem processTracker_dangling (a : List (Str × TrackerInfo)) (r : NormalizedScanResult)
    (acc : AnalyticsState × List Str) (t : Str) (h : mapGet a t = none) :
    processTracker a r acc t = acc := by
  rw [processTracker, h]

/-- `processTracker` reads only `result.domain` and `result.domainMetadata`, which
`filterDanglingResult` leaves unchanged. -/
theorem processTracker_filterResult (a : List (Str × TrackerInfo))
    (r : NormalizedScanResult) :
    processTracker a (filterDanglingResult a r) = processTracker a r := rfl

/-- Folding the tracker loop over only the non-dangling domains gives the same
accumulator, because dangling domains are skipped. -/
theorem foldl_processTracker_filter (a : List (Str × TrackerInfo))
    (r : NormalizedScanResult) (ts : List Str) :
    ∀ acc : AnalyticsState × List Str,
      (ts.filter (fun t => (mapGet a t).isSome)).foldl (processTracker a r) acc =
        ts.foldl (processTracker a r) acc := by
  induction ts with
  | nil => intro acc; rfl
  | cons t ts ih =>
    intro acc
    by_cases h : (mapGet a t).isSome
    · rw [List.filter_cons_of_pos (by simpa using h), List.foldl_cons, List.foldl_cons]
      exact ih _
    · rw [List.filter_cons_of_neg (by simpa using h), List.foldl_cons,
        processTracker_dangling a r acc t (Option.not_isSome_iff_eq_none.mp h)]
      exact ih acc

/-- The tracker loop only writes the frequency / grouping structures and the per-site
owner set: running it from accumulators that agree on those components keeps them
in agreement. -/
theorem processTracker_congr (a : List (Str × TrackerInfo)) (r : NormalizedScanResult)
    (acc acc' : AnalyticsState × List Str) (t : Str)
    (hm : FreqMapsEq acc.1 acc'.1) (ho : acc.2 = acc'.2) :
    FreqMapsEq (processTracker a r acc t).1 (processTracker a r acc' t).1 ∧
      (processTracker a r acc t).2 = (processTracker a r acc' t).2 := by
  unfold FreqMapsEq at hm
  obtain ⟨e1, e2, e3, e4, e5, e6, e7⟩ := hm
  rw [processTracker, processTracker]
  cases hg : mapGet a t with
  | none => exact ⟨⟨e1, e2, e3, e4, e5, e6, e7⟩, ho⟩
  | some info =>
    unfold FreqMapsEq
    refine ⟨⟨?_, ?_, ?_, ?_, ?_, ?_, ?_⟩, ?_⟩ <;>
      simp [e1, e2, e3, e4, e5, e6, e7, ho]

theorem foldl_processTracker_congr (a : List (Str × TrackerInfo))
    (r : NormalizedScanResult) (ts : List Str) :
    ∀ acc acc' : AnalyticsState × List Str, FreqMapsEq acc.1 acc'.1 → acc.2 = acc'.2 →
      FreqMapsEq (ts.foldl (processTracker a r) acc).1
          (ts.foldl (processTracker a r) acc').1 ∧
        (ts.foldl (processTracker a r) acc).2 = (ts.foldl (processTracker a r) acc').2 := by
  induction ts with
  | nil => intro acc acc' hm ho; exact ⟨hm, ho⟩
  | cons t ts ih =>
    intro acc acc' hm ho
    rw [List.foldl_cons, List.foldl_cons]
    obtain ⟨hm1, ho1⟩ := processTracker_congr a r acc acc' t hm ho
    exact ih _ _ hm1 ho1

/-- The counter updates before the tracker loop do not touch the maps. -/
theorem preTrackerState_maps (st : AnalyticsState) (r : NormalizedScanResult) :
    FreqMapsEq (preTrackerState st r) st := by
  unfold FreqMapsEq preTrackerState
  by_cases h1 : truthyStr r.error = true <;>
    by_cases h2 : 0 < r.trackerDomains.length <;> simp [h1, h2]

/-- The per-site `uniqueDomainsPerSite`/`uniqueOwnersPerSite` pushes do not touch
the maps. -/
theorem processResult_maps_eq_inner (a : List (Str × TrackerInfo)) (st : AnalyticsState)
    (r : NormalizedScanResult) :
    FreqMapsEq (processResult a st r)
      (r.trackerDomains.foldl (processTracker a r) (preTrackerState st r, [])).1 := by
  unfold FreqMapsEq processResult
  exact ⟨rfl, rfl, rfl, rfl, rfl, rfl, rfl⟩

/-- Processing a result and processing its dangling-free form from map-equal states
leaves the frequency / grouping structures equal. -/
theorem processResult_freqMaps_congr (a : List (Str × TrackerInfo))
    (st st' : AnalyticsState) (r : NormalizedScanResult) (hm : FreqMapsEq st st') :
    FreqMapsEq (processResult a st r) (processResult a st' (filterDanglingResult a r)) := by
  refine freqMapsEq_trans (processResult_maps_eq_inner a st r)
    (freqMapsEq_trans ?_ (freqMapsEq_symm (processResult_maps_eq_inner a st'
      (filterDanglingResult a r))))
  have hdomains : (filterDanglingResult a r).trackerDomains =
      r.trackerDomains.filter (fun t => (mapGet a t).isSome) := rfl
  rw [processTracker_filterResult, hdomains, foldl_processTracker_filter]
  have hpre : FreqMapsEq (preTrackerState st r)
      (preTrackerState st' (filterDanglingResult a r)) :=
    freqMapsEq_trans (preTrackerState_maps st r)
      (freqMapsEq_trans hm (freqMapsEq_symm
        (preTrackerState_maps st' (filterDanglingResult a r))))
  exact (foldl_processTracker_congr a r r.trackerDomains (preTrackerState st r, [])
    (preTrackerState st' (filterDanglingResult a r), []) hpre rfl).1

/-- Aggregating a batch and aggregating its dangling-free form produce the same
frequency / grouping structures. -/
theorem analyticsState_freqMaps_filter (a : List (Str × TrackerInfo))
    (rs : List NormalizedScanResult) :
    ∀ st st' : AnalyticsState, FreqMapsEq st st' →
      FreqMapsEq (rs.foldl (processResult a) st)
        ((rs.map (filterDanglingResult a)).foldl (processResult a) st') := by
  induction rs with
  | nil => intro st st' hm; exact hm
  | cons r rest ih =>
    intro st st' hm
    rw [List.map_cons, List.foldl_cons, List.foldl_cons]
    exact ih _ _ (processResult_freqMaps_congr a st st' r hm)

/-- The tracker loop never touches the per-site counters. -/
theorem processTracker_counters (a : List (Str × TrackerInfo)) (r : NormalizedScanResult)
    (acc : AnalyticsState × List Str) (t : Str) :
    (processTracker a r acc t).1.sitesWithTrackers = acc.1.sitesWithTrackers ∧
      (processTracker a r acc t).1.totalTrackerInstances = acc.1.totalTrackerInstances ∧
      (processTracker a r acc t).1.allTrackerCounts = acc.1.allTrackerCounts := by
  rw [processTracker]
  cases hg : mapGet a t with
  | none => exact ⟨rfl, rfl, rfl⟩
  | some info => exact ⟨rfl, rfl, rfl⟩

theorem foldl_processTracker_counters (a : List (Str × TrackerInfo))
    (r : NormalizedScanResult) (ts : List Str) :
    ∀ acc : AnalyticsState × List Str,
      (ts.foldl (processTracker a r) acc).1.sitesWithTrackers = acc.1.sitesWithTrackers ∧
        (ts.foldl (processTracker a r) acc).1.totalTrackerInstances =
          acc.1.totalTrackerInstances ∧
        (ts.foldl (processTracker a r) acc).1.allTrackerCounts = acc.1.allTrackerCounts := by
  induction ts with
  | nil => intro acc; exact ⟨rfl, rfl, rfl⟩
  | cons t ts ih =>
    intro acc
    rw [List.foldl_cons]
    obtain ⟨i1, i2, i3⟩ := ih (processTracker a r acc t)
    obtain ⟨p1, p2, p3⟩ := processTracker_counters a r acc t
    exact ⟨i1.trans p1, i2.trans p2, i3.trans p3⟩

theorem preTrackerState_counters (st : AnalyticsState) (r : NormalizedScanResult) :
    (preTrackerState st r).sitesWithTrackers =
        st.sitesWithTrackers + (if r.trackerDomains.isEmpty then 0 else 1) ∧
      (preTrackerState st r).totalTrackerInstances =
        st.totalTrackerInstances + r.trackerDomains.length ∧
      (preTrackerState st r).allTrackerCounts =
        st.allTrackerCounts ++ [r.trackerDomains.length] := by
  unfold preTrackerState
  by_cases h1 : truthyStr r.error = true <;> by_cases h2 : r.trackerDomains = [] <;>
    simp [h1, h2, List.length_pos, List.isEmpty_iff]

theorem processResult_counters (a : List (Str × TrackerInfo)) (st : AnalyticsState)
    (r : NormalizedScanResult) :
    (processResult a st r).sitesWithTrackers =
        st.sitesWithTrackers + (if r.trackerDomains.isEmpty then 0 else 1) ∧
      (processResult a st r).totalTrackerInstances =
        st.totalTrackerInstances + r.trackerDomains.length ∧
      (processResult a st r).allTrackerCounts =
        st.allTrackerCounts ++ [r.trackerDomains.length] := by
  obtain ⟨f1, f2, f3⟩ :=
    foldl_processTracker_counters a r r.trackerDomains (preTrackerState st r, [])
  obtain ⟨q1, q2, q3⟩ := preTrackerState_counters st r
  unfold processResult
  exact ⟨f1.trans q1, f2.trans q2, f3.trans q3⟩

theorem foldl_processResult_counters (a : List (Str × TrackerInfo))
    (rs : List NormalizedScanResult) :
    ∀ st : AnalyticsState,
      (rs.foldl (processResult a) st).sitesWithTrackers =
          st.sitesWithTrackers + (rs.filter (fun r => !r.trackerDomains.isEmpty)).length ∧
        (rs.foldl (processResult a) st).totalTrackerInstances =
          st.totalTrackerInstances + (rs.map (·.trackerDomains.length)).sum ∧
        (rs.foldl (processResult a) st).allTrackerCounts =
          st.allTrackerCounts ++ rs.map (·.trackerDomains.length) := by
  induction rs with
  | nil => intro st; simp
  | cons r rest ih =>
    intro st
    rw [List.foldl_cons]
    obtain ⟨i1, i2, i3⟩ := ih (processResult a st r)
    obtain ⟨p1, p2, p3⟩ := processResult_counters a st r
    refine ⟨?_, ?_, ?_⟩
    · rw [i1, p1, List.filter_cons]
      by_cases hr : r.trackerDomains.isEmpty
      · simp [hr]
      · simp [hr]
        omega
    · rw [i2, p2, List.map_cons, List.sum_cons]
      omega
    · rw [i3, p3, List.map_cons]
      simp

-- Every key of the per-domain site map comes from a successful allTrackers lookup.

theorem mem_mapSet_key {β : Type} (m : List (Str × β)) (k : Str) (v : β) :
    ∀ p ∈ mapSet m k v, p.1 = k ∨ p ∈ m := by
  induction m with
  | nil =>
    intro p hp
    rcases List.mem_singleton.mp hp with rfl
    exact Or.inl rfl
  | cons q rest ih =>
    intro p hp
    rw [mapSet] at hp
    by_cases hq : q.1 = k
    · rw [if_pos hq] at hp
      rcases List.mem_cons.mp hp with rfl | hp
      · exact Or.inl rfl
      · exact Or.inr (List.mem_cons_of_mem _ hp)
    · rw [if_neg hq] at hp
      rcases List.mem_cons.mp hp with rfl | hp
      · exact Or.inr (List.mem_cons_self _ _)
      · rcases ih p hp with hk | hk
        · exact Or.inl hk
        · exact Or.inr (List.mem_cons_of_mem _ hk)

theorem processTracker_domainKeys (a : List (Str × TrackerInfo)) (r : NormalizedScanResult)
    (acc : AnalyticsState × List Str) (t : Str)
    (h : ∀ p ∈ acc.1.trackerDomainSiteMap, (mapGet a p.1).isSome = true) :
    ∀ p ∈ (processTracker a r acc t).1.trackerDomainSiteMap,
      (mapGet a p.1).isSome = true := by
  rw [processTracker]
  cases hg : mapGet a t with
  | none => exact h
  | some info =>
    intro p hp
    have hp2 : p ∈ addSiteTo acc.1.trackerDomainSiteMap t r.domain := hp
    rw [addSiteTo] at hp2
    rcases mem_mapSet_key _ _ _ p hp2 with hk | hk
    · rw [hk, hg]
      rfl
    · exact h p hk

theorem foldl_processTracker_domainKeys (a : List (Str × TrackerInfo))
    (r : NormalizedScanResult) (ts : List Str) :
    ∀ acc : AnalyticsState × List Str,
      (∀ p ∈ acc.1.trackerDomainSiteMap, (mapGet a p.1).isSome = true) →
      ∀ p ∈ (ts.foldl (processTracker a r) acc).1.trackerDomainSiteMap,
        (mapGet a p.1).isSome = true := by
  induction ts with
  | nil => intro acc h; exact h
  | cons t ts ih =>
    intro acc h
    rw [List.foldl_cons]
    exact ih _ (processTracker_domainKeys a r acc t h)

theorem processResult_domainKeys (a : List (Str × TrackerInfo)) (st : AnalyticsState)
    (r : NormalizedScanResult)
    (h : ∀ p ∈ st.trackerDomainSiteMap, (mapGet a p.1).isSome = true) :
    ∀ p ∈ (processResult a st r).trackerDomainSiteMap, (mapGet a p.1).isSome = true := by
  intro p hp
  have hpre : ∀ q ∈ (preTrackerState st r).trackerDomainSiteMap,
      (mapGet a q.1).isSome = true := by
    intro q hq
    exact h q ((preTrackerState_maps st r).1 ▸ hq)
  have hp2 : p ∈ (r.trackerDomains.foldl (processTracker a r)
      (preTrackerState st r, [])).1.trackerDomainSiteMap := hp
  exact foldl_processTracker_domainKeys a r r.trackerDomains
    (preTrackerState st r, []) hpre p hp2

theorem analyticsState_domainKeys (a : List (Str × TrackerInfo))
    (rs : List NormalizedScanResult) :
    ∀ p ∈ (analyticsState a rs).trackerDomainSiteMap, (mapGet a p.1).isSome = true := by
  rw [analyticsState]
  have hgen : ∀ st : AnalyticsState,
      (∀ p ∈ st.trackerDomainSiteMap, (mapGet a p.1).isSome = true) →
      ∀ p ∈ (rs.foldl (processResult a) st).trackerDomainSiteMap,
        (mapGet a p.1).isSome = true := by
    induction rs with
    | nil => intro st h; exact h
    | cons r rest ih =>
      intro st h
      rw [List.foldl_cons]
      exact ih _ (processResult_domainKeys a st r h)
  exact hgen initState (by intro p hp; simp [initState] at hp)

-- The undecorated stable sort is a permutation (used for ranked-name membership).

theorem insertByCount_perm (x : Str × Nat) (l : List (Str × Nat)) :
    (insertByCount x l).Perm (x :: l) := by
  induction l with
  | nil => exact List.Perm.refl _
  | cons y ys ih =>
    simp only [insertByCount]
    by_cases h : x.2 < y.2
    · rw [if_pos h]
      exact (ih.cons y).trans (List.Perm.swap x y ys)
    · rw [if_neg h]

theorem sortByCountDesc_perm (l : List (Str × Nat)) : (sortByCountDesc l).Perm l := by
  induction l with
  | nil => exact List.Perm.refl _
  | cons x xs ih =>
    exact (insertByCount_perm x (sortByCountDesc xs)).trans (ih.cons x)

theorem getTopN_name_mem (m : List (Str × Nat)) (total : Rat) (n : Nat) :
    ∀ item ∈ getTopN m total n, ∃ p ∈ m, item.name = p.1 := by
  intro item hitem
  rw [getTopN] at hitem
  obtain ⟨q, hq, rfl⟩ := List.mem_map.mp hitem
  have hq2 : q ∈ sortByCountDesc m := List.take_subset n _ hq
  exact ⟨q, (sortByCountDesc_perm m).mem_iff.mp hq2, rfl⟩

/-- The `ok` branch of `generateAnalytics`, with its locals expanded. -/
theorem generateAnalytics_ok_eq (d : FinalOutput) (hlen : ¬d.scanResults.length = 0) :
    generateAnalytics d = .ok
      { summary :=
          { totalSitesProcessed := d.scanResults.length,
            sitesWithErrors := (analyticsState d.allTrackers d.scanResults).sitesWithErrors,
            sitesWithTrackers := (analyticsState d.allTrackers d.scanResults).sitesWithTrackers,
            totalTrackerInstances :=
              (analyticsState d.allTrackers d.scanResults).totalTrackerInstances,
            totalUniqueTrackerDomains := d.allTrackers.length,
            totalUniqueTrackerOwners := (uniqueOwnerNames d.allTrackers).length,
            averageTrackersPerSite :=
              round2 (((analyticsState d.allTrackers d.scanResults).totalTrackerInstances : Rat) /
                (d.scanResults.length : Rat)),
            averageUniqueTrackerDomainsPerSite :=
              round2 (((analyticsState d.allTrackers d.scanResults).uniqueDomainsPerSite.sum : Rat) /
                (d.scanResults.length : Rat)),
            averageUniqueTrackerOwnersPerSite :=
              round2 (((analyticsState d.allTrackers d.scanResults).uniqueOwnersPerSite.sum : Rat) /
                (d.scanResults.length : Rat)),
            averagePageSizeBytes :=
              roundHalfUp (((analyticsState d.allTrackers d.scanResults).totalPageSize : Rat) /
                (d.scanResults.length : Rat)) },
        trackerCountDistribution :=
          { min :=
              if 0 < (analyticsState d.allTrackers d.scanResults).allTrackerCounts.length then
                listMin (analyticsState d.allTrackers d.scanResults).allTrackerCounts
              else 0,
            max :=
              if 0 < (analyticsState d.allTrackers d.scanResults).allTrackerCounts.length then
                listMax (analyticsState d.allTrackers d.scanResults).allTrackerCounts
              else 0,
            median := calculateMedian (analyticsState d.allTrackers d.scanResults).allTrackerCounts,
            mean :=
              round2 (((analyticsState d.allTrackers d.scanResults).totalTrackerInstances : Rat) /
                (d.scanResults.length : Rat)) },
        topTrackerDomains :=
          getTopN
            ((analyticsState d.allTrackers d.scanResults).trackerDomainSiteMap.map
              (fun p => (p.1, p.2.length)))
            (d.scanResults.length : Rat) 20,
        topTrackerOwners :=
          getTopN
            ((analyticsState d.allTrackers d.scanResults).trackerOwnerSiteMap.map
              (fun p => (p.1, p.2.length)))
            (d.scanResults.length : Rat) 20,
        topTrackerCategories :=
          getTopN (analyticsState d.allTrackers d.scanResults).trackerCategoryInstanceMap
            ((analyticsState d.allTrackers d.scanResults).totalTrackerInstances : Rat) 20,
        analysisByCategory :=
          if (buildGroupAnalysis (analyticsState d.allTrackers d.scanResults).categoryData
              (analyticsState d.allTrackers d.scanResults).categoryOwnerMap).isEmpty then none
          else
            some (buildGroupAnalysis (analyticsState d.allTrackers d.scanResults).categoryData
              (analyticsState d.allTrackers d.scanResults).categoryOwnerMap),
        analysisByCountry :=
          if (buildGroupAnalysis (analyticsState d.allTrackers d.scanResults).countryData
              (analyticsState d.allTrackers d.scanResults).countryOwnerMap).isEmpty then none
          else
            some (buildGroupAnalysis (analyticsState d.allTrackers d.scanResults).countryData
              (analyticsState d.allTrackers d.scanResults).countryOwnerMap) } := by
  rw [generateAnalytics, if_neg hlen]

/-- C10: a tracker domain listed by a site but absent from `allTrackers` still counts
toward `summary.totalTrackerInstances`, `sitesWithTrackers` and the per-site
tracker-count distribution (all computed from `trackerDomains.length` before any
lookup), while the per-tracker-domain, per-owner, per-category and grouped breakdown
structures are exactly those of the dataset with every dangling reference removed, and
every ranked tracker-domain name resolves in `allTrackers`. -/
theorem generateAnalytics_dangling_refs (d : FinalOutput) (h : d.scanResults ≠ []) :
    (generateAnalytics d).toOption.map (fun r => r.summary.totalTrackerInstances) =
        some ((d.scanResults.map (·.trackerDomains.length)).sum) ∧
      (generateAnalytics d).toOption.map (fun r => r.summary.sitesWithTrackers) =
        some ((d.scanResults.filter (fun r => !r.trackerDomains.isEmpty)).length) ∧
      (generateAnalytics d).toOption.map (fun r => r.trackerCountDistribution) =
        some
          { min := listMin (d.scanResults.map (·.trackerDomains.length)),
            max := listMax (d.scanResults.map (·.trackerDomains.length)),
            median := calculateMedian (d.scanResults.map (·.trackerDomains.length)),
            mean :=
              round2 ((((d.scanResults.map (·.trackerDomains.length)).sum : Nat) : Rat) /
                (d.scanResults.length : Rat)) } ∧
      FreqMapsEq (analyticsState d.allTrackers d.scanResults)
        (analyticsState (filterDangling d).allTrackers (filterDangling d).scanResults) ∧
      (generateAnalytics d).toOption.map
          (fun r => r.topTrackerDomains.all fun item => (mapGet d.allTrackers item.name).isSome) =
        some true := by
  have hlen : ¬d.scanResults.length = 0 := by simpa [List.length_eq_zero] using h
  obtain ⟨c1, c2, c3⟩ := foldl_processResult_counters d.allTrackers d.scanResults initState
  have hc1 : (analyticsState d.allTrackers d.scanResults).sitesWithTrackers =
      (d.scanResults.filter (fun r => !r.trackerDomains.isEmpty)).length := by
    rw [analyticsState, c1]
    simp [initState]
  have hc2 : (analyticsState d.allTrackers d.scanResults).totalTrackerInstances =
      (d.scanResults.map (·.trackerDomains.length)).sum := by
    rw [analyticsState, c2]
    simp [initState]
  have hc3 : (analyticsState d.allTrackers d.scanResults).allTrackerCounts =
      d.scanResults.map (·.trackerDomains.length) := by
    rw [analyticsState, c3, initState]
    simp
  have hcountlen : 0 < (analyticsState d.allTrackers d.scanResults).allTrackerCounts.length := by
    rw [hc3, List.length_map, List.length_pos]
    exact h
  rw [generateAnalytics_ok_eq d hlen]
  refine ⟨?_, ?_, ?_, ?_, ?_⟩
  · simp [Except.toOption, hc2]
  · simp [Except.toOption, hc1]
  · simp only [Except.toOption, Option.map_some']
    rw [if_pos hcountlen, if_pos hcountlen, hc2, hc3]
  · exact analyticsState_freqMaps_filter d.allTrackers d.scanResults initState initState
      (freqMapsEq_refl initState)
  · simp only [Except.toOption, Option.map_some', Option.some.injEq]
    rw [List.all_eq_true]
    intro item hitem
    obtain ⟨p, hp, hname⟩ := getTopN_name_mem _ _ _ item hitem
    obtain ⟨q, hq, rfl⟩ := List.mem_map.mp hp
    rw [hname]
    exact analyticsState_domainKeys d.allTrackers d.scanResults q hq

def trackerInfoT : TrackerInfo := { owner := ['O'], prevalence := 1 }

/-- A site that references one known tracker and one dangling domain (`ghost`). -/
def resultWithDangling : NormalizedScanResult :=
  { requestedUrl := ['u'], finalUrl := ['u'], domain := ['d'], timestamp := ['t'],
    screenshotPath := none, totalSize := 0,
    trackerDomains := [['t', '.', 'c', 'o'], ['g', 'h', 'o', 's', 't']] }

def danglingOutput : FinalOutput :=
  { allTrackers := [(['t', '.', 'c', 'o'], trackerInfoT)],
    scanResults := [resultWithDangling] }

/-- Witness for C10 on a dataset with a dangling tracker reference. -/
theorem generateAnalytics_dangling_refs_witness :
    danglingOutput.scanResults ≠ [] ∧
      ((generateAnalytics danglingOutput).toOption.map
            (fun r => r.summary.totalTrackerInstances) =
          some ((danglingOutput.scanResults.map (·.trackerDomains.length)).sum) ∧
        (generateAnalytics danglingOutput).toOption.map
            (fun r => r.summary.sitesWithTrackers) =
          some ((danglingOutput.scanResults.filter
            (fun r => !r.trackerDomains.isEmpty)).length) ∧
        (generateAnalytics danglingOutput).toOption.map
            (fun r => r.trackerCountDistribution) =
          some
            { min := listMin (danglingOutput.scanResults.map (·.trackerDomains.length)),
              max := listMax (danglingOutput.scanResults.map (·.trackerDomains.length)),
              median :=
                calculateMedian (danglingOutput.scanResults.map (·.trackerDomains.length)),
              mean :=
                round2 ((((danglingOutput.scanResults.map
                    (·.trackerDomains.length)).sum : Nat) : Rat) /
                  (danglingOutput.scanResults.length : Rat)) } ∧
        FreqMapsEq (analyticsState danglingOutput.allTrackers danglingOutput.scanResults)
          (analyticsState (filterDangling danglingOutput).allTrackers
            (filterDangling danglingOutput).scanResults) ∧
        (generateAnalytics danglingOutput).toOption.map
            (fun r =>
              r.topTrackerDomains.all fun item =>
                (mapGet danglingOutput.allTrackers item.name).isSome) =
          some true) :=
  ⟨by decide, generateAnalytics_dangling_refs danglingOutput (by decide)⟩
